import Mathlib

/-!
# gqrss: GitHub issue search to RSS/Atom feeds

A shallow embedding of `main.go`: the decoded response types, the query
template `ghQuery`, the fetch step `getData`, the feed mapper and writer
`makeRSS`, and `main`.

Conventions of the embedding.

* Go strings are Lean strings (sequences of code points).
* A Go pointer that may be nil is an `Option`; a nil dereference is the
  outcome `Outcome.panic`.
* Everything the program obtains from outside (JSON coding, HTTP, the file
  system, the feed serialisers) is an explicit parameter, so every theorem
  holds for all behaviours of the outside world.
* `log.Fatal` ends the run with `Outcome.fatal`.
-/

namespace Gqrss

/-! ## `fmt.Sprintf` on string operands -/

/-- What `fmt` appends once the format is used up: nothing, or, for operands
left over, `%!(EXTRA string=a, string=b)`. -/
def sprintfEnd : List String → List Char
  | [] => []
  | a :: args =>
    "%!(EXTRA ".data ++ (", ".intercalate ((a :: args).map fun s => "string=" ++ s)).data ++ [')']

/-- One verb `v` of a format: the text it produces and the operands left.
`%%` gives a percent sign and uses no operand; `%s` and `%v` give the next
operand unchanged; any other verb character gives `%!v(string=operand)`; with
no operand left the text is `%!v(MISSING)`. -/
def sprintfVerb (v : Char) (args : List String) : List Char × List String :=
  if v = '%' then (['%'], args)
  else
    match args with
    | [] => (['%', '!', v] ++ "(MISSING)".data, [])
    | a :: args =>
      if v = 's' ∨ v = 'v' then (a.data, args)
      else (['%', '!', v] ++ "(string=".data ++ a.data ++ [')'], args)

/-- Formatting loop of `fmt.Sprintf` for string operands. Ordinary characters
are copied, a percent sign starts a verb (see `sprintfVerb`), and a format
ending in a lone percent sign gives `%!(NOVERB)`. Flags, widths, precisions
and argument indexes do not occur in the format strings of this program and
are not covered. -/
def sprintfAux : List Char → List String → List Char
  | [], args => sprintfEnd args
  | [c], args => if c = '%' then "%!(NOVERB)".data ++ sprintfEnd args else c :: sprintfEnd args
  | c :: v :: rest, args =>
    if c = '%' then (sprintfVerb v args).1 ++ sprintfAux rest (sprintfVerb v args).2
    else c :: sprintfAux (v :: rest) args

/-- Go `fmt.Sprintf(format, args...)` with string operands. -/
def Sprintf (format : String) (args : List String) : String :=
  ⟨sprintfAux format.data args⟩

/-! ## Response types (`main.go` lines 21-75) -/

/-- Go `time.Time`, as an instant in nanoseconds since the Unix epoch. -/
structure Time where
  unixNano : Int
  deriving DecidableEq, Repr

/-- GQLQuery is what github wants in the POST request. -/
structure GQLQuery where
  Query : String
  deriving DecidableEq, Repr

/-- PageInfo represents the page information. -/
structure PageInfo where
  HasNextPage : Bool
  EndCursor : String
  deriving DecidableEq, Repr

/-- Repository information has repo specific bits. -/
structure Repository where
  Name : String
  URL : String
  StargazerCount : Int
  deriving DecidableEq, Repr

/-- Author is an individual author. -/
structure Author where
  Login : String
  URL : String
  deriving DecidableEq, Repr

/-- Node is an entry from the search. -/
structure Node where
  Repository : Repository
  CreatedAt : Time
  Title : String
  URL : String
  Author : Author
  BodyHTML : String
  deriving DecidableEq, Repr

/-- Edges wraps one node. -/
structure Edges where
  Node : Node
  deriving DecidableEq, Repr

/-- Search bundles the edges together. -/
structure Search where
  IssueCount : Int
  PageInfo : PageInfo
  Edges : List Edges
  deriving DecidableEq, Repr

/-- Data is the data returned from a search. -/
structure Data where
  Search : Search
  deriving DecidableEq, Repr

/-- GHResp represents a response from the GraphQL API. -/
structure GHResp where
  Data : Data
  deriving DecidableEq, Repr

/-! ## Feed model (`github.com/gorilla/feeds`)

Only the fields `makeRSS` sets are kept; every other field of the library
structures stays at its zero value throughout the program. -/

namespace feeds

/-- Library type `feeds.Link`. -/
structure Link where
  Href : String
  deriving DecidableEq, Repr

/-- Library type `feeds.Author`. -/
structure Author where
  Name : String
  Email : String
  deriving DecidableEq, Repr

/-- Library type `feeds.Item`. -/
structure Item where
  Title : String
  Link : Link
  Created : Time
  Description : String
  Author : Author
  deriving DecidableEq, Repr

/-- Library type `feeds.Feed`. -/
structure Feed where
  Title : String
  Link : Link
  Description : String
  Author : Author
  Copyright : String
  Items : List Item
  deriving DecidableEq, Repr

end feeds

/-! ## Constants (`main.go` lines 77-107) -/

/-- The fixed endpoint. -/
def endPoint : String := "https://api.github.com/graphql"

/-- The query template, line by line as in the source (lines 78-107); the
lines of `bodyHTML`, `author` and its closing brace start with a tab. -/
def ghQuery : String :=
  "\n" ++
  "\x7b\n" ++
  "  search(first: 100, type: ISSUE, query: \"state:open %s\") \x7b\n" ++
  "    issueCount\n" ++
  "    pageInfo \x7b\n" ++
  "      hasNextPage\n" ++
  "      endCursor\n" ++
  "    \x7d\n" ++
  "    edges \x7b\n" ++
  "      node \x7b\n" ++
  "        ... on Issue \x7b\n" ++
  "          repository \x7b\n" ++
  "            name\n" ++
  "            url\n" ++
  "            stargazerCount\n" ++
  "          \x7d\n" ++
  "          createdAt\n" ++
  "          title\n" ++
  "          url\n" ++
  "\t  bodyHTML\n" ++
  "\t  author \x7b\n" ++
  "            login\n" ++
  "            url\n" ++
  "\t  \x7d\n" ++
  "        \x7d\n" ++
  "      \x7d\n" ++
  "    \x7d\n" ++
  "  \x7d\n" ++
  "\x7d\n"

/-! ## The feed mapper (`makeRSS`, lines 144-168) -/

/-- The item built in the loop body for one edge (lines 157-165). -/
def makeRSS_item (e : Edges) : feeds.Item :=
  { Title := Sprintf "%s: %s" [e.Node.Repository.Name, e.Node.Title]
    Link := { Href := e.Node.URL }
    Created := e.Node.CreatedAt
    Description := e.Node.BodyHTML
    Author := { Name := e.Node.Author.Login, Email := "" } }

/-- The loop of lines 152-168: range over the edges, `continue` on an empty
title, otherwise `append` the item to `feed.Items`. -/
def makeRSS_loop (edges : List Edges) (items : List feeds.Item) : List feeds.Item :=
  edges.foldl
    (fun items e => if e.Node.Title = "" then items else items ++ [makeRSS_item e])
    items

/-- The feed model `makeRSS` holds when it reaches the file step (lines
144-168), for the global `search` and a non-nil response. -/
def makeRSS_feed (search : String) (q : GHResp) : feeds.Feed :=
  { Title := Sprintf "%s GitHub Issues" [search]
    Link := { Href := "https://github.com/qbit/gqrss" }
    Description := Sprintf "Open GitHub issues relating to %s" [search]
    Author := { Name := "Aaron Bieber", Email := "aaron@bolddaemon.com" }
    Copyright := "This work is copyright © Aaron Bieber"
    Items := makeRSS_loop q.Data.Search.Edges [] }

/-! ## The fetch step (`getData`, lines 109-141) -/

/-- A non-nil Go `error` value, by its message. -/
structure Error where
  msg : String
  deriving DecidableEq, Repr

/-- The parts of `http.Request` the program touches. -/
structure Request where
  Method : String
  URL : String
  Body : String
  Header : List (String × String)
  deriving DecidableEq, Repr

/-- Go `req.Header.Set(key, value)`: the value replaces any earlier one. -/
def Request.setHeader (req : Request) (key value : String) : Request :=
  { req with Header := (req.Header.filter fun kv => kv.1 ≠ key) ++ [(key, value)] }

/-- The parts of `http.Response` the program touches. -/
structure Response where
  StatusCode : Int
  Body : String
  deriving DecidableEq, Repr

/-- The outside world of `getData`: the JSON encoder, the request
constructor, the process environment, the HTTP round trip, the read of the
response body and the JSON decoder. Each fallible call either fails with an
error or yields its value; `unmarshal` yields the pointer `re` as the decoder
leaves it (nil for the JSON text `null`). -/
structure Net where
  encode : GQLQuery → Except Error String
  newRequest : String → String → String → Except Error Request
  getenv : String → String
  doRequest : Request → Except Error Response
  readAll : Response → Except Error String
  unmarshal : String → Except Error (Option GHResp)

/-- The calls `getData` makes, in the order of the source; `closeBody` is the
deferred `res.Body.Close()`, run when the function returns. -/
inductive Step where
  | encode
  | newRequest
  | doRequest
  | readAll
  | unmarshal
  | closeBody
  deriving DecidableEq, Repr

/-- What one call of `getData` returns (`re`, `err`) and the calls it made. -/
structure Fetched where
  re : Option GHResp
  err : Option Error
  steps : List Step
  deriving DecidableEq, Repr

/-- The function `getData` (lines 109-141). -/
def getData (net : Net) (q : GQLQuery) : Fetched :=
  match net.encode q with
  | .error err => ⟨none, some err, [.encode]⟩
  | .ok buf =>
    match net.newRequest "POST" endPoint buf with
    | .error err => ⟨none, some err, [.encode, .newRequest]⟩
    | .ok req =>
      let req := req.setHeader "Authorization" (Sprintf "bearer %s" [net.getenv "GH_AUTH_TOKEN"])
      match net.doRequest req with
      | .error err => ⟨none, some err, [.encode, .newRequest, .doRequest]⟩
      | .ok res =>
        match net.readAll res with
        | .error err =>
          ⟨none, some err, [.encode, .newRequest, .doRequest, .readAll, .closeBody]⟩
        | .ok data =>
          match net.unmarshal data with
          | .error err =>
            ⟨none, some err,
              [.encode, .newRequest, .doRequest, .readAll, .unmarshal, .closeBody]⟩
          | .ok re =>
            ⟨re, none, [.encode, .newRequest, .doRequest, .readAll, .unmarshal, .closeBody]⟩

/-! ## The feed writer (`makeRSS`, lines 170-181) -/

/-- The file system: the contents of each existing file, by name. -/
abbrev FS := String → Option String

/-- State of the file system once `name` holds `data`. -/
def FS.put (fs : FS) (name data : String) : FS :=
  fun n => if n = name then some data else fs n

/-- The operating system as `makeRSS` sees it: `create fs name` is the error
`os.Create(name)` returns in file-system state `fs`, or `none` when the call
succeeds (the file then exists and is empty). -/
structure OS where
  create : FS → String → Option Error

/-- The serialisers of the feeds library: the text `feed.WriteAtom(w)` and
`feed.WriteRss(w)` send to the writer `w`. The program discards the error
result of both calls. -/
structure FeedLib where
  WriteAtom : feeds.Feed → String
  WriteRss : feeds.Feed → String

/-- The calls `makeRSS` makes on the outside world. -/
inductive Call where
  | create (name : String)
  | writeAtom (file : String) (feed : feeds.Feed)
  | writeRss (file : String) (feed : feeds.Feed)
  deriving DecidableEq, Repr

/-- How a run ends: a normal return, `log.Fatal(err)` (the error is logged
and the process exits with status 1), or a run-time panic on a nil pointer
dereference. -/
inductive Outcome where
  | returned
  | fatal (err : Error)
  | panic
  deriving DecidableEq, Repr

/-- A run of `makeRSS`: how it ended, the file system it left, and the calls
it made, in order. -/
structure Run where
  outcome : Outcome
  fs : FS
  calls : List Call

/-- The function `makeRSS` (lines 143-182), for the globals `search` and
`prefix` (here `pfx`). The argument is a pointer: on nil the range clause of
line 152 dereferences it and the run panics before any file call. -/
def makeRSS (os : OS) (lib : FeedLib) (search pfx : String) (q : Option GHResp)
    (fs : FS) : Run :=
  match q with
  | none => { outcome := .panic, fs := fs, calls := [] }
  | some r =>
    let feed := makeRSS_feed search r
    let atomFile := Sprintf "%satom.xml" [pfx]
    match os.create fs atomFile with
    | some err => { outcome := .fatal err, fs := fs, calls := [.create atomFile] }
    | none =>
      let fs := fs.put atomFile ""
      let rssFile := Sprintf "%srss.xml" [pfx]
      match os.create fs rssFile with
      | some err =>
        { outcome := .fatal err, fs := fs, calls := [.create atomFile, .create rssFile] }
      | none =>
        let fs := fs.put rssFile ""
        let fs := fs.put atomFile ((fs atomFile).getD "" ++ lib.WriteAtom feed)
        let fs := fs.put rssFile ((fs rssFile).getD "" ++ lib.WriteRss feed)
        { outcome := .returned
          fs := fs
          calls := [.create atomFile, .create rssFile,
                    .writeAtom atomFile feed, .writeRss rssFile feed] }

/-! ## The program (`main`, lines 184-203) -/

/-- A run of `main`: the query sent, what `getData` returned, the errors
printed on standard output, the argument handed to `makeRSS`, and the run of
`makeRSS`. -/
structure MainRun where
  query : GQLQuery
  fetched : Fetched
  printed : List Error
  passed : Option GHResp
  rss : Run

/-- The function `main` (lines 184-203), for the parsed flag values `search`
and `prefix` (here `pfx`). The `protect` calls restrict what later system
calls may succeed; that is part of the behaviour of `net` and `os`. -/
def main (net : Net) (os : OS) (lib : FeedLib) (search pfx : String) (fs : FS) : MainRun :=
  let q : GQLQuery := { Query := Sprintf ghQuery [search] }
  let fetched := getData net q
  let printed := match fetched.err with
    | some err => [err]
    | none => []
  { query := q
    fetched := fetched
    printed := printed
    passed := fetched.re
    rss := makeRSS os lib search pfx fetched.re fs }

/-! ## Definitions used in the statements -/

/-- The template up to the search filter. -/
def ghQueryHead : String :=
  "\n\x7b\n  search(first: 100, type: ISSUE, query: \""

/-- The template after the substitution marker. -/
def ghQueryTail : String :=
  "\") \x7b\n    issueCount\n    pageInfo \x7b\n      hasNextPage\n      endCursor\n    \x7d\n" ++
  "    edges \x7b\n      node \x7b\n        ... on Issue \x7b\n          repository \x7b\n" ++
  "            name\n            url\n            stargazerCount\n          \x7d\n" ++
  "          createdAt\n          title\n          url\n\t  bodyHTML\n\t  author \x7b\n" ++
  "            login\n            url\n\t  \x7d\n        \x7d\n      \x7d\n    \x7d\n  \x7d\n\x7d\n"

/-- The file name a call creates, if it is a creation. -/
def Call.created : Call → Option String
  | .create name => some name
  | _ => none

/-- Whether a call writes feed text. -/
def Call.isWrite : Call → Bool
  | .create _ => false
  | _ => true

/-- The request `getData` sends, built from the constructed request. -/
def authorised (net : Net) (req : Request) : Request :=
  req.setHeader "Authorization" (Sprintf "bearer %s" [net.getenv "GH_AUTH_TOKEN"])

/-- All five steps of the fetch succeed, with these intermediate values. -/
def StepsSucceed (net : Net) (q : GQLQuery) (buf : String) (req : Request)
    (res : Response) (data : String) (re : Option GHResp) : Prop :=
  net.encode q = .ok buf ∧ net.newRequest "POST" endPoint buf = .ok req
    ∧ net.doRequest (authorised net req) = .ok res ∧ net.readAll res = .ok data
    ∧ net.unmarshal data = .ok re

/-- Step `s` is the first step of the fetch to fail, with error `err`: the
steps before it succeed and it returns `err`. -/
def FirstFailure (net : Net) (q : GQLQuery) (s : Step) (err : Error) : Prop :=
  match s with
  | .encode => net.encode q = .error err
  | .newRequest => ∃ buf, net.encode q = .ok buf
      ∧ net.newRequest "POST" endPoint buf = .error err
  | .doRequest => ∃ buf req, net.encode q = .ok buf
      ∧ net.newRequest "POST" endPoint buf = .ok req
      ∧ net.doRequest (authorised net req) = .error err
  | .readAll => ∃ buf req res, net.encode q = .ok buf
      ∧ net.newRequest "POST" endPoint buf = .ok req
      ∧ net.doRequest (authorised net req) = .ok res ∧ net.readAll res = .error err
  | .unmarshal => ∃ buf req res data, net.encode q = .ok buf
      ∧ net.newRequest "POST" endPoint buf = .ok req
      ∧ net.doRequest (authorised net req) = .ok res ∧ net.readAll res = .ok data
      ∧ net.unmarshal data = .error err
  | .closeBody => False

/-- The five steps in source order, up to and including step `s`. -/
def stepsThrough : Step → List Step
  | .encode => [.encode]
  | .newRequest => [.encode, .newRequest]
  | .doRequest => [.encode, .newRequest, .doRequest]
  | .readAll => [.encode, .newRequest, .doRequest, .readAll]
  | .unmarshal => [.encode, .newRequest, .doRequest, .readAll, .unmarshal]
  | .closeBody => []

/-! ## Sample inputs -/

/-- An edge with a title, with markup in title and body. -/
def sampleEdge : Edges :=
  { Node := { Repository := { Name := "ports", URL := "https://github.com/o/ports",
                              StargazerCount := 7 }
              CreatedAt := ⟨1600000000000000000⟩
              Title := "pledge <fails>"
              URL := "https://github.com/o/ports/issues/1"
              Author := { Login := "qbit", URL := "https://github.com/qbit" }
              BodyHTML := "<p>a &amp; b</p>" } }

/-- A response with one titled issue between two edges without a title. -/
def sampleResp : GHResp :=
  { Data := { Search := {
      IssueCount := 3
      PageInfo := { HasNextPage := false, EndCursor := "" }
      Edges := [
        { Node := { Repository := { Name := "", URL := "", StargazerCount := 0 }
                    CreatedAt := ⟨0⟩, Title := "", URL := ""
                    Author := { Login := "", URL := "" }, BodyHTML := "" } },
        sampleEdge,
        { Node := { Repository := { Name := "x", URL := "", StargazerCount := 0 }
                    CreatedAt := ⟨0⟩, Title := "", URL := "u"
                    Author := { Login := "", URL := "" }, BodyHTML := "b" } } ] } } }

/-- An operating system on which every creation succeeds. -/
def osOk : OS := { create := fun _ _ => none }

/-- An operating system on which `rss.xml` cannot be created (say it exists
and is read-only) and every other creation succeeds. -/
def osRssDenied : OS :=
  { create := fun _ name =>
      if name = "rss.xml" then some ⟨"open rss.xml: permission denied"⟩ else none }

/-- An operating system without the directory `nodir`. -/
def osNoDir : OS :=
  { create := fun _ name =>
      if "nodir/".data.isPrefixOf name.data then some ⟨"no such file or directory"⟩ else none }

/-- Serialisers that write only a root element. -/
def libStub : FeedLib :=
  { WriteAtom := fun _ => "<feed></feed>", WriteRss := fun _ => "<rss></rss>" }

/-- The empty file system. -/
def noFiles : FS := fun _ => none

/-- A response without issue nodes. -/
def emptyResp : GHResp :=
  { Data := { Search := { IssueCount := 0
                          PageInfo := { HasNextPage := false, EndCursor := "" }
                          Edges := [] } } }

/-- A network on which the HTTP round trip fails. -/
def netDown : Net :=
  { encode := fun q => .ok ("\x7b\"query\":\"" ++ q.Query ++ "\"\x7d\n")
    newRequest := fun m u b => .ok { Method := m, URL := u, Body := b, Header := [] }
    getenv := fun _ => ""
    doRequest := fun _ => .error ⟨"dial tcp: no route to host"⟩
    readAll := fun res => .ok res.Body
    unmarshal := fun _ => .ok none }

/-! ## Facts about `Sprintf` -/

/-- A character other than the percent sign is copied. -/
theorem sprintfAux_copy (c : Char) (rest : List Char) (args : List String)
    (hc : c ≠ '%') : sprintfAux (c :: rest) args = c :: sprintfAux rest args := by
  cases rest <;> simp [sprintfAux, hc]

/-- Format text without a percent sign is copied, and formatting goes on with
the same operands. -/
theorem sprintfAux_literal (pre rest : List Char) (args : List String)
    (h : '%' ∉ pre) : sprintfAux (pre ++ rest) args = pre ++ sprintfAux rest args := by
  induction pre with
  | nil => rfl
  | cons c pre ih =>
    have hc : c ≠ '%' := fun hc => h (by simp [hc])
    have hp : '%' ∉ pre := fun hp => h (by simp [hp])
    rw [List.cons_append, sprintfAux_copy c _ args hc, ih hp, List.cons_append]

/-- Format text without a percent sign and no operands left: the text itself. -/
theorem sprintfAux_plain (l : List Char) (h : '%' ∉ l) : sprintfAux l [] = l := by
  have := sprintfAux_literal l [] [] h
  simpa [sprintfAux, sprintfEnd] using this

/-- The verb `%s` puts the next operand into the output unchanged. -/
theorem sprintfAux_verb_s (rest : List Char) (a : String) (args : List String) :
    sprintfAux ('%' :: 's' :: rest) (a :: args) = a.data ++ sprintfAux rest args := by
  simp [sprintfAux, sprintfVerb]

/-- Formats of the shape `%s` followed by plain text. -/
theorem Sprintf_s_then (tail a : String) (h : '%' ∉ tail.data) :
    Sprintf ("%s" ++ tail) [a] = a ++ tail := by
  apply String.ext
  show sprintfAux ('%' :: 's' :: tail.data) [a] = a.data ++ tail.data
  rw [sprintfAux_verb_s, sprintfAux_plain _ h]

/-- Formats of the shape plain text followed by `%s`. -/
theorem Sprintf_then_s (head a : String) (h : '%' ∉ head.data) :
    Sprintf (head ++ "%s") [a] = head ++ a := by
  apply String.ext
  show sprintfAux (head.data ++ '%' :: 's' :: []) [a] = head.data ++ a.data
  rw [sprintfAux_literal _ _ _ h, sprintfAux_verb_s]
  simp [sprintfAux, sprintfEnd]

/-- The item title format. -/
theorem Sprintf_item_title (a b : String) : Sprintf "%s: %s" [a, b] = a ++ ": " ++ b := by
  apply String.ext
  show sprintfAux ('%' :: 's' :: (": ".data ++ '%' :: 's' :: [])) [a, b]
    = (a.data ++ ": ".data) ++ b.data
  rw [sprintfAux_verb_s, sprintfAux_literal _ _ _ (by decide), sprintfAux_verb_s]
  simp [sprintfAux, sprintfEnd]

/-! ## The feed mapper -/

/-- The loop appends, to the items it starts with, the items of the edges
with a non-empty title, in the order of the edges. -/
theorem makeRSS_loop_eq (edges : List Edges) (items : List feeds.Item) :
    makeRSS_loop edges items
      = items ++ (edges.filter fun e => decide (e.Node.Title ≠ "")).map makeRSS_item := by
  induction edges generalizing items with
  | nil => simp [makeRSS_loop]
  | cons e es ih =>
    have step : makeRSS_loop (e :: es) items
        = makeRSS_loop es (if e.Node.Title = "" then items else items ++ [makeRSS_item e]) := rfl
    rw [step, ih]
    by_cases h : e.Node.Title = "" <;> simp [h]

/-- The items of the feed, as a filter followed by a map. -/
theorem makeRSS_feed_items_eq (search : String) (q : GHResp) :
    (makeRSS_feed search q).Items
      = (q.Data.Search.Edges.filter fun e => decide (e.Node.Title ≠ "")).map makeRSS_item := by
  show makeRSS_loop q.Data.Search.Edges [] = _
  rw [makeRSS_loop_eq, List.nil_append]

/-- C1: the items of the feed model built by `makeRSS` are the image under
the item construction, in source order, of the edges whose title is not the
empty string; so their number is the number of such edges, and edges with an
empty title contribute nothing. -/
theorem makeRSS_feed_items (search : String) (q : GHResp) :
    (makeRSS_feed search q).Items
        = (q.Data.Search.Edges.filter fun e => decide (e.Node.Title ≠ "")).map makeRSS_item
      ∧ (makeRSS_feed search q).Items.length
        = q.Data.Search.Edges.countP fun e => decide (e.Node.Title ≠ "") := by
  have h := makeRSS_feed_items_eq search q
  refine ⟨h, ?_⟩
  rw [h, List.length_map, List.countP_eq_length_filter]

/-- C2: an edge with a non-empty title yields an item of the feed built by
`makeRSS` whose title is the repository name, then `: `, then the issue
title; whose link is the node URL; whose creation time is `createdAt`; whose
author name is the author login; and whose description is `bodyHTML`
unchanged. -/
theorem makeRSS_item_fields (search : String) (q : GHResp) (e : Edges)
    (he : e ∈ q.Data.Search.Edges) (ht : e.Node.Title ≠ "") :
    makeRSS_item e ∈ (makeRSS_feed search q).Items
      ∧ (makeRSS_item e).Title = e.Node.Repository.Name ++ ": " ++ e.Node.Title
      ∧ (makeRSS_item e).Link.Href = e.Node.URL
      ∧ (makeRSS_item e).Created = e.Node.CreatedAt
      ∧ (makeRSS_item e).Author.Name = e.Node.Author.Login
      ∧ (makeRSS_item e).Description = e.Node.BodyHTML := by
  refine ⟨?_, Sprintf_item_title _ _, rfl, rfl, rfl, rfl⟩
  rw [makeRSS_feed_items_eq search q]
  exact List.mem_map_of_mem _ (List.mem_filter.mpr ⟨he, by simpa using ht⟩)

/-- C2 at `sampleResp`: the one titled edge gives the item titled
`ports: pledge <fails>` with the body passed through. -/
theorem makeRSS_item_fields_witness :
    sampleEdge ∈ sampleResp.Data.Search.Edges ∧ sampleEdge.Node.Title ≠ ""
      ∧ makeRSS_item sampleEdge ∈ (makeRSS_feed "OpenBSD" sampleResp).Items
      ∧ (makeRSS_item sampleEdge).Title = "ports" ++ ": " ++ "pledge <fails>"
      ∧ (makeRSS_item sampleEdge).Description = "<p>a &amp; b</p>" :=
  have h := makeRSS_item_fields "OpenBSD" sampleResp sampleEdge (by decide) (by decide)
  ⟨by decide, by decide, h.1, h.2.1, h.2.2.2.2.2⟩

/-- C8: the feed model built by `makeRSS` has title the keyword followed by
` GitHub Issues`, description `Open GitHub issues relating to ` followed by
the keyword, and a link, author and copyright that are constants, whatever
the keyword and the search result. -/
theorem makeRSS_feed_header (search : String) (q : GHResp) :
    (makeRSS_feed search q).Title = search ++ " GitHub Issues"
      ∧ (makeRSS_feed search q).Description = "Open GitHub issues relating to " ++ search
      ∧ (makeRSS_feed search q).Link = { Href := "https://github.com/qbit/gqrss" }
      ∧ (makeRSS_feed search q).Author
          = { Name := "Aaron Bieber", Email := "aaron@bolddaemon.com" }
      ∧ (makeRSS_feed search q).Copyright = "This work is copyright © Aaron Bieber" :=
  ⟨Sprintf_s_then " GitHub Issues" search (by decide),
   Sprintf_then_s "Open GitHub issues relating to " search (by decide),
   rfl, rfl, rfl⟩

/-! ## The query builder -/

/-- The template has one substitution marker, right after `state:open `. -/
theorem ghQuery_split : ghQuery = ghQueryHead ++ "state:open %s" ++ ghQueryTail := by
  simp [ghQuery, ghQueryHead, ghQueryTail]

/-- C3: the template is fixed text without a percent sign around the single
marker `%s` that follows `state:open `, and for every keyword the built query
is that same fixed text with the keyword in place of the marker: it contains
`state:open ` immediately followed by the keyword, and no marker of the
template is left. -/
theorem query_contains_keyword :
    ∃ pre post : String, '%' ∉ pre.data ∧ '%' ∉ post.data
      ∧ ghQuery = pre ++ "state:open %s" ++ post
      ∧ ∀ k : String, Sprintf ghQuery [k] = pre ++ "state:open " ++ k ++ post := by
  refine ⟨ghQueryHead, ghQueryTail, by decide, by decide, ghQuery_split, fun k => ?_⟩
  rw [ghQuery_split]
  apply String.ext
  show sprintfAux ((ghQueryHead ++ "state:open ").data ++ '%' :: 's' :: ghQueryTail.data) [k]
    = ((ghQueryHead.data ++ "state:open ".data) ++ k.data) ++ ghQueryTail.data
  rw [sprintfAux_literal _ _ _ (by decide), sprintfAux_verb_s,
    sprintfAux_plain _ (by decide)]
  simp [List.append_assoc]

/-! ## The feed writer -/

/-- The two file names. -/
theorem file_names (pfx : String) :
    Sprintf "%satom.xml" [pfx] = pfx ++ "atom.xml"
      ∧ Sprintf "%srss.xml" [pfx] = pfx ++ "rss.xml" :=
  ⟨Sprintf_s_then "atom.xml" pfx (by decide), Sprintf_s_then "rss.xml" pfx (by decide)⟩

/-- The two file names differ, whatever the prefix. -/
theorem file_names_ne (pfx : String) : pfx ++ "atom.xml" ≠ pfx ++ "rss.xml" := by
  intro h
  have h2 : pfx.data ++ "atom.xml".data = pfx.data ++ "rss.xml".data :=
    congrArg String.data h
  exact absurd (List.append_cancel_left h2) (by decide)

/-- The run of `makeRSS` when both creations succeed. -/
theorem makeRSS_ok (os : OS) (lib : FeedLib) (search pfx : String) (r : GHResp) (fs : FS)
    (hatom : os.create fs (pfx ++ "atom.xml") = none)
    (hrss : os.create (fs.put (pfx ++ "atom.xml") "") (pfx ++ "rss.xml") = none) :
    makeRSS os lib search pfx (some r) fs =
      { outcome := .returned
        fs := (((fs.put (pfx ++ "atom.xml") "").put (pfx ++ "rss.xml") "").put
                (pfx ++ "atom.xml") (lib.WriteAtom (makeRSS_feed search r))).put
                (pfx ++ "rss.xml") (lib.WriteRss (makeRSS_feed search r))
        calls := [.create (pfx ++ "atom.xml"), .create (pfx ++ "rss.xml"),
                  .writeAtom (pfx ++ "atom.xml") (makeRSS_feed search r),
                  .writeRss (pfx ++ "rss.xml") (makeRSS_feed search r)] } := by
  have hne := file_names_ne pfx
  have e1 : ((fs.put (pfx ++ "atom.xml") "").put (pfx ++ "rss.xml") "") (pfx ++ "atom.xml")
      = some "" := by simp [FS.put, hne]
  have e2 : (((fs.put (pfx ++ "atom.xml") "").put (pfx ++ "rss.xml") "").put
      (pfx ++ "atom.xml") (lib.WriteAtom (makeRSS_feed search r))) (pfx ++ "rss.xml")
      = some "" := by simp [FS.put, hne.symm]
  have e3 : ∀ t : String, "" ++ t = t := fun t => String.ext (by simp)
  simp only [makeRSS, (file_names pfx).1, (file_names pfx).2, hatom, hrss, e1, e2,
    Option.getD_some, e3]

/-- The run of `makeRSS` when the first creation fails. -/
theorem makeRSS_atom_fails (os : OS) (lib : FeedLib) (search pfx : String) (r : GHResp)
    (fs : FS) (err : Error) (hatom : os.create fs (pfx ++ "atom.xml") = some err) :
    makeRSS os lib search pfx (some r) fs =
      { outcome := .fatal err, fs := fs, calls := [.create (pfx ++ "atom.xml")] } := by
  simp only [makeRSS, (file_names pfx).1, hatom]

/-- The run of `makeRSS` when the second creation fails. -/
theorem makeRSS_rss_fails (os : OS) (lib : FeedLib) (search pfx : String) (r : GHResp)
    (fs : FS) (err : Error) (hatom : os.create fs (pfx ++ "atom.xml") = none)
    (hrss : os.create (fs.put (pfx ++ "atom.xml") "") (pfx ++ "rss.xml") = some err) :
    makeRSS os lib search pfx (some r) fs =
      { outcome := .fatal err, fs := fs.put (pfx ++ "atom.xml") ""
        calls := [.create (pfx ++ "atom.xml"), .create (pfx ++ "rss.xml")] } := by
  simp only [makeRSS, (file_names pfx).1, (file_names pfx).2, hatom, hrss]

/-- C4: when both file creations succeed, `makeRSS` returns having created
exactly the two files `pfx ++ "atom.xml"` and `pfx ++ "rss.xml"`, which are
two different names and both exist afterwards, and every other file name is
left as it was. -/
theorem makeRSS_creates_two_files (os : OS) (lib : FeedLib) (search pfx : String)
    (r : GHResp) (fs : FS)
    (hatom : os.create fs (pfx ++ "atom.xml") = none)
    (hrss : os.create (fs.put (pfx ++ "atom.xml") "") (pfx ++ "rss.xml") = none) :
    (makeRSS os lib search pfx (some r) fs).outcome = .returned
      ∧ (makeRSS os lib search pfx (some r) fs).calls.filterMap Call.created
          = [pfx ++ "atom.xml", pfx ++ "rss.xml"]
      ∧ pfx ++ "atom.xml" ≠ pfx ++ "rss.xml"
      ∧ ((makeRSS os lib search pfx (some r) fs).fs (pfx ++ "atom.xml")).isSome
      ∧ ((makeRSS os lib search pfx (some r) fs).fs (pfx ++ "rss.xml")).isSome
      ∧ ∀ n, n ≠ pfx ++ "atom.xml" → n ≠ pfx ++ "rss.xml" →
          (makeRSS os lib search pfx (some r) fs).fs n = fs n := by
  have hne := file_names_ne pfx
  rw [makeRSS_ok os lib search pfx r fs hatom hrss]
  refine ⟨rfl, rfl, hne, ?_, ?_, ?_⟩
  · simp [FS.put, hne]
  · simp [FS.put]
  · intro n h1 h2
    simp [FS.put, h1, h2]

/-- C4 with the prefix `out/` on an empty file system: `out/atom.xml` and
`out/rss.xml` are created. -/
theorem makeRSS_creates_two_files_witness :
    (makeRSS osOk libStub "OpenBSD" "out/" (some sampleResp) noFiles).calls.filterMap
        Call.created = ["out/" ++ "atom.xml", "out/" ++ "rss.xml"] :=
  (makeRSS_creates_two_files osOk libStub "OpenBSD" "out/" sampleResp noFiles rfl rfl).2.1

/-- C5 as stated fails: with `rss.xml` not creatable, the second creation
fails and the process ends by `log.Fatal`, yet `atom.xml`, absent before, has
been created and is left in place, empty. -/
theorem makeRSS_rss_failure_leaves_atom :
    osRssDenied.create (noFiles.put "atom.xml" "") "rss.xml"
        = some ⟨"open rss.xml: permission denied"⟩
      ∧ (makeRSS osRssDenied libStub "OpenBSD" "" (some sampleResp) noFiles).outcome
        = .fatal ⟨"open rss.xml: permission denied"⟩
      ∧ noFiles "atom.xml" = none
      ∧ (makeRSS osRssDenied libStub "OpenBSD" "" (some sampleResp) noFiles).fs "atom.xml"
        = some "" := by
  decide

/-- C5, amended: if creating the Atom file fails, `makeRSS` ends by
`log.Fatal` with that error, the file system is as before, and the failed
creation is its only call (no creation of the RSS file, no write). If the
Atom file is created and creating the RSS file fails, `makeRSS` ends by
`log.Fatal` with that error after the two creations and no write: the Atom
file is left in place, empty, and nothing else has changed. -/
theorem makeRSS_create_failure (os : OS) (lib : FeedLib) (search pfx : String)
    (r : GHResp) (fs : FS) :
    (∀ err, os.create fs (pfx ++ "atom.xml") = some err →
        (makeRSS os lib search pfx (some r) fs).outcome = .fatal err
          ∧ (makeRSS os lib search pfx (some r) fs).fs = fs
          ∧ (makeRSS os lib search pfx (some r) fs).calls = [.create (pfx ++ "atom.xml")])
      ∧ (∀ err, os.create fs (pfx ++ "atom.xml") = none →
          os.create (fs.put (pfx ++ "atom.xml") "") (pfx ++ "rss.xml") = some err →
        (makeRSS os lib search pfx (some r) fs).outcome = .fatal err
          ∧ (makeRSS os lib search pfx (some r) fs).fs = fs.put (pfx ++ "atom.xml") ""
          ∧ (makeRSS os lib search pfx (some r) fs).calls
              = [.create (pfx ++ "atom.xml"), .create (pfx ++ "rss.xml")]) := by
  constructor
  · intro err h
    rw [makeRSS_atom_fails os lib search pfx r fs err h]
    exact ⟨rfl, rfl, rfl⟩
  · intro err h1 h2
    rw [makeRSS_rss_fails os lib search pfx r fs err h1 h2]
    exact ⟨rfl, rfl, rfl⟩

/-- C5 amended, at a missing directory: the first creation fails, nothing is
created and no second creation is tried. -/
theorem makeRSS_create_failure_witness :
    osNoDir.create noFiles ("nodir/" ++ "atom.xml") = some ⟨"no such file or directory"⟩
      ∧ (makeRSS osNoDir libStub "OpenBSD" "nodir/" (some sampleResp) noFiles).fs = noFiles
      ∧ (makeRSS osNoDir libStub "OpenBSD" "nodir/" (some sampleResp) noFiles).calls
          = [.create ("nodir/" ++ "atom.xml")] :=
  have h := (makeRSS_create_failure osNoDir libStub "OpenBSD" "nodir/" sampleResp noFiles).1
    ⟨"no such file or directory"⟩ (by decide)
  ⟨by decide, h.2.1, h.2.2⟩

/-- C7 as stated fails: for a result without issue nodes and a prefix naming
a missing directory, `makeRSS` ends by `log.Fatal` at the first creation;
neither output file exists afterwards and nothing is written. -/
theorem makeRSS_empty_result_no_files :
    emptyResp.Data.Search.Edges = []
      ∧ (makeRSS osNoDir libStub "OpenBSD" "nodir/" (some emptyResp) noFiles).outcome
        = .fatal ⟨"no such file or directory"⟩
      ∧ (makeRSS osNoDir libStub "OpenBSD" "nodir/" (some emptyResp) noFiles).fs
          "nodir/atom.xml" = none
      ∧ (makeRSS osNoDir libStub "OpenBSD" "nodir/" (some emptyResp) noFiles).fs
          "nodir/rss.xml" = none
      ∧ ((makeRSS osNoDir libStub "OpenBSD" "nodir/" (some emptyResp) noFiles).calls.filter
          Call.isWrite) = [] := by
  decide

/-- C7, amended: for a result without issue nodes the feed model has no
items, and when both file creations succeed `makeRSS` still returns after
creating both files and writing that feed to each: the Atom file holds what
`WriteAtom` sends for the feed and the RSS file what `WriteRss` sends. -/
theorem makeRSS_empty_result (os : OS) (lib : FeedLib) (search pfx : String)
    (r : GHResp) (fs : FS) (hr : r.Data.Search.Edges = [])
    (hatom : os.create fs (pfx ++ "atom.xml") = none)
    (hrss : os.create (fs.put (pfx ++ "atom.xml") "") (pfx ++ "rss.xml") = none) :
    (makeRSS_feed search r).Items = []
      ∧ (makeRSS os lib search pfx (some r) fs).outcome = .returned
      ∧ (makeRSS os lib search pfx (some r) fs).calls
          = [.create (pfx ++ "atom.xml"), .create (pfx ++ "rss.xml"),
             .writeAtom (pfx ++ "atom.xml") (makeRSS_feed search r),
             .writeRss (pfx ++ "rss.xml") (makeRSS_feed search r)]
      ∧ (makeRSS os lib search pfx (some r) fs).fs (pfx ++ "atom.xml")
          = some (lib.WriteAtom (makeRSS_feed search r))
      ∧ (makeRSS os lib search pfx (some r) fs).fs (pfx ++ "rss.xml")
          = some (lib.WriteRss (makeRSS_feed search r)) := by
  have hne := file_names_ne pfx
  have hitems : (makeRSS_feed search r).Items = [] := by
    show makeRSS_loop r.Data.Search.Edges [] = []
    rw [hr]; rfl
  rw [makeRSS_ok os lib search pfx r fs hatom hrss]
  refine ⟨hitems, rfl, rfl, ?_, ?_⟩
  · simp [FS.put, hne]
  · simp [FS.put]

/-- C7 amended, at the empty response with no prefix: both files are written
with the serialisations of the feed without items. -/
theorem makeRSS_empty_result_witness :
    (makeRSS_feed "OpenBSD" emptyResp).Items = []
      ∧ (makeRSS osOk libStub "OpenBSD" "" (some emptyResp) noFiles).fs ("" ++ "atom.xml")
          = some "<feed></feed>"
      ∧ (makeRSS osOk libStub "OpenBSD" "" (some emptyResp) noFiles).fs ("" ++ "rss.xml")
          = some "<rss></rss>" :=
  have h := makeRSS_empty_result osOk libStub "OpenBSD" "" emptyResp noFiles rfl rfl rfl
  ⟨h.1, h.2.2.2.1, h.2.2.2.2⟩

/-! ## The fetch step -/

/-- The fetch either has a first failing step or succeeds in all five. -/
theorem getData_cases (net : Net) (q : GQLQuery) :
    (∃ s err, FirstFailure net q s err)
      ∨ ∃ buf req res data re, StepsSucceed net q buf req res data re := by
  cases h1 : net.encode q with
  | error e => exact .inl ⟨.encode, e, h1⟩
  | ok buf =>
    cases h2 : net.newRequest "POST" endPoint buf with
    | error e => exact .inl ⟨.newRequest, e, buf, h1, h2⟩
    | ok req =>
      cases h3 : net.doRequest (authorised net req) with
      | error e => exact .inl ⟨.doRequest, e, buf, req, h1, h2, h3⟩
      | ok res =>
        cases h4 : net.readAll res with
        | error e => exact .inl ⟨.readAll, e, buf, req, res, h1, h2, h3, h4⟩
        | ok data =>
          cases h5 : net.unmarshal data with
          | error e => exact .inl ⟨.unmarshal, e, buf, req, res, data, h1, h2, h3, h4, h5⟩
          | ok re => exact .inr ⟨buf, req, res, data, re, h1, h2, h3, h4, h5⟩

/-- What `getData` returns when step `s` is the first to fail. -/
theorem getData_failure (net : Net) (q : GQLQuery) (s : Step) (err : Error)
    (h : FirstFailure net q s err) :
    (getData net q).re = none ∧ (getData net q).err = some err
      ∧ (getData net q).steps.filter (fun t => decide (t ≠ .closeBody)) = stepsThrough s := by
  cases s with
  | encode => simp only [FirstFailure] at h; simp [getData, h, stepsThrough]
  | newRequest =>
    obtain ⟨buf, h1, h2⟩ := h
    simp [getData, h1, h2, stepsThrough]
  | doRequest =>
    obtain ⟨buf, req, h1, h2, h3⟩ := h
    simp only [authorised] at h3
    simp [getData, h1, h2, h3, stepsThrough]
  | readAll =>
    obtain ⟨buf, req, res, h1, h2, h3, h4⟩ := h
    simp only [authorised] at h3
    simp [getData, h1, h2, h3, h4, stepsThrough]
  | unmarshal =>
    obtain ⟨buf, req, res, data, h1, h2, h3, h4, h5⟩ := h
    simp only [authorised] at h3
    simp [getData, h1, h2, h3, h4, h5, stepsThrough]
  | closeBody => exact absurd h id

/-- What `getData` returns when all five steps succeed. -/
theorem getData_success (net : Net) (q : GQLQuery) (buf : String) (req : Request)
    (res : Response) (data : String) (re : Option GHResp)
    (h : StepsSucceed net q buf req res data re) :
    getData net q
      = ⟨re, none, [.encode, .newRequest, .doRequest, .readAll, .unmarshal, .closeBody]⟩ := by
  obtain ⟨h1, h2, h3, h4, h5⟩ := h
  simp only [authorised] at h3
  simp [getData, h1, h2, h3, h4, h5]

/-- C6: `getData` returns a nil result with a non-nil error exactly when one
of the five steps fails; the error is then that of the first failing step,
and the steps performed are the five in source order up to and including
that one, each once (nothing later, nothing retried); when all five succeed
it returns the decoded response and a nil error, having performed each step
once. -/
theorem getData_contract (net : Net) (q : GQLQuery) :
    (((getData net q).re = none ∧ (getData net q).err ≠ none)
        ↔ ∃ s err, FirstFailure net q s err)
      ∧ (∀ s err, FirstFailure net q s err →
          (getData net q).re = none ∧ (getData net q).err = some err
            ∧ (getData net q).steps.filter (fun t => decide (t ≠ .closeBody))
                = stepsThrough s)
      ∧ (∀ buf req res data re, StepsSucceed net q buf req res data re →
          (getData net q).re = re ∧ (getData net q).err = none
            ∧ (getData net q).steps.filter (fun t => decide (t ≠ .closeBody))
                = [.encode, .newRequest, .doRequest, .readAll, .unmarshal])
      ∧ (getData net q).steps.Nodup := by
  refine ⟨⟨?_, ?_⟩, getData_failure net q, ?_, ?_⟩
  · rintro ⟨-, herr⟩
    rcases getData_cases net q with hf | ⟨buf, req, res, data, re, hs⟩
    · exact hf
    · rw [getData_success net q buf req res data re hs] at herr
      exact absurd rfl herr
  · rintro ⟨s, err, hf⟩
    obtain ⟨h1, h2, -⟩ := getData_failure net q s err hf
    exact ⟨h1, by simp [h2]⟩
  · intro buf req res data re hs
    rw [getData_success net q buf req res data re hs]
    exact ⟨rfl, rfl, rfl⟩
  · rcases getData_cases net q with ⟨s, err, hf⟩ | ⟨buf, req, res, data, re, hs⟩
    · cases s with
      | encode => simp only [FirstFailure] at hf; simp [getData, hf]
      | newRequest =>
        obtain ⟨buf, h1, h2⟩ := hf
        simp [getData, h1, h2]
      | doRequest =>
        obtain ⟨buf, req, h1, h2, h3⟩ := hf
        simp only [authorised] at h3
        simp [getData, h1, h2, h3]
      | readAll =>
        obtain ⟨buf, req, res, h1, h2, h3, h4⟩ := hf
        simp only [authorised] at h3
        simp [getData, h1, h2, h3, h4]
      | unmarshal =>
        obtain ⟨buf, req, res, data, h1, h2, h3, h4, h5⟩ := hf
        simp only [authorised] at h3
        simp [getData, h1, h2, h3, h4, h5]
      | closeBody => exact absurd hf id
    · rw [getData_success net q buf req res data re hs]
      simp

/-- C6 on a network where the round trip fails: the result is nil, the error
is that of the round trip, and reading and decoding are not performed. -/
theorem getData_contract_witness :
    (getData netDown ⟨"q"⟩).re = none
      ∧ (getData netDown ⟨"q"⟩).err = some ⟨"dial tcp: no route to host"⟩
      ∧ (getData netDown ⟨"q"⟩).steps.filter (fun t => decide (t ≠ .closeBody))
          = stepsThrough .doRequest :=
  (getData_contract netDown ⟨"q"⟩).2.1 .doRequest ⟨"dial tcp: no route to host"⟩
    ⟨_, _, rfl, rfl, rfl⟩

/-! ## The program -/

/-- A fetch that returns an error returns a nil result. -/
theorem getData_err_re (net : Net) (q : GQLQuery) (err : Error)
    (h : (getData net q).err = some err) : (getData net q).re = none := by
  rcases getData_cases net q with ⟨s, e, hf⟩ | ⟨buf, req, res, data, re, hs⟩
  · exact (getData_failure net q s e hf).1
  · rw [getData_success net q buf req res data re hs] at h
    exact absurd h (by simp)

/-- C9: when the fetch returns an error, `main` prints that error and goes
on: it calls `makeRSS` with the result of the fetch, which is nil, and
`makeRSS` panics on the nil dereference, having made no file call and left
the file system as it was. -/
theorem main_fetch_error (net : Net) (os : OS) (lib : FeedLib) (search pfx : String)
    (fs : FS) (err : Error)
    (h : (getData net { Query := Sprintf ghQuery [search] }).err = some err) :
    (main net os lib search pfx fs).printed = [err]
      ∧ (main net os lib search pfx fs).passed = none
      ∧ (main net os lib search pfx fs).rss = makeRSS os lib search pfx none fs
      ∧ (main net os lib search pfx fs).rss.outcome = .panic
      ∧ (main net os lib search pfx fs).rss.calls = []
      ∧ (main net os lib search pfx fs).rss.fs = fs := by
  have hre := getData_err_re net _ err h
  refine ⟨?_, ?_, ?_, ?_, ?_, ?_⟩ <;> simp [main, h, hre, makeRSS]

/-- C9 on a network where the round trip fails. -/
theorem main_fetch_error_witness :
    (main netDown osOk libStub "OpenBSD" "" noFiles).printed
        = [⟨"dial tcp: no route to host"⟩]
      ∧ (main netDown osOk libStub "OpenBSD" "" noFiles).rss.outcome = .panic :=
  have h := main_fetch_error netDown osOk libStub "OpenBSD" "" noFiles
    ⟨"dial tcp: no route to host"⟩ rfl
  ⟨h.1, h.2.2.2.1⟩

end Gqrss
